import Mathlib

/-!
Verification of `scripts/local_server.py`, a local static-file server
launcher.  The environment a run interacts with (which ports have a
listener, whether the served port becomes reachable, whether the root
path exists and is a directory, whether the browser opens, whether the
user interrupts) is modelled by boolean-valued oracles; each Python
function is embedded as a Lean function over those oracles, and `main`
as a function producing the list of observable events together with the
process outcome.
-/

namespace LocalServer

/-- Result of `connect_ex` to 127.0.0.1 on a given port during the port
scan: `occupied p = true` means the connect succeeds (a listener is
present), mirroring `connect_ex(...) == 0`. -/
abbrev Occupied := Nat → Bool

/-- The error message raised by `find_available_port` when every probed
port is occupied: `f"在 {start_port} 附近找不到可用端口"`. -/
def portExhaustedMsg (start_port : Nat) : String :=
  "在 " ++ toString start_port ++ " 附近找不到可用端口"

/-- The `for port in range(start_port, start_port + tries)` loop of
`find_available_port`: probe `port`, return it if the connect attempt
fails, otherwise move to `port + 1` with one fewer try left. -/
def findPortGo (occupied : Occupied) (port : Nat) : Nat → Option Nat
  | 0 => none
  | n + 1 => if occupied port then findPortGo occupied (port + 1) n else some port

/-- `find_available_port(start_port, tries=25)`: scan
`start_port, start_port+1, …, start_port+tries-1`, returning the first
port whose TCP connect attempt fails; raise `RuntimeError` (modelled as
`Except.error`) if every probe connects. -/
def find_available_port (occupied : Occupied) (start_port : Nat) (tries : Nat) :
    Except String Nat :=
  match findPortGo occupied start_port tries with
  | some p => Except.ok p
  | none => Except.error (portExhaustedMsg start_port)

/-- Outcome of the `i`-th readiness probe in `wait_until_listening`:
`ready i = true` means `connect_ex(...) == 0` on that attempt. -/
abbrev Ready := Nat → Bool

/-- The error message of `wait_until_listening` on budget exhaustion:
`"服务器启动超时"`. -/
def startupTimeoutMsg : String := "服务器启动超时"

/-- The `for _ in range(retries)` loop of `wait_until_listening`,
carrying the index of the current attempt. -/
def waitGo (ready : Ready) (i : Nat) : Nat → Except String Unit
  | 0 => Except.error startupTimeoutMsg
  | n + 1 => if ready i then Except.ok () else waitGo ready (i + 1) n

/-- `wait_until_listening(port, retries=40, delay=0.15)`: poll the port
until one connect succeeds, returning normally; raise `RuntimeError`
(modelled as `Except.error`) once the budget is exhausted.  The 150 ms
sleep between attempts has no functional effect and is not modelled. -/
def wait_until_listening (ready : Ready) (retries : Nat) : Except String Unit :=
  waitGo ready 0 retries

/-! ### URL construction -/

/-- Python's `str.lstrip('/')`: remove every leading `'/'` character. -/
def lstripSlash (s : String) : String :=
  String.mk (s.data.dropWhile (fun c => c = '/'))

/-- The URL built in `main`:
`f"http://localhost:{port}/{args.entry.lstrip('/')}"`. -/
def buildUrl (port : Nat) (entry : String) : String :=
  "http://localhost:" ++ toString port ++ "/" ++ lstripSlash entry

/-! ### Substring containment (used to inspect error messages) -/

/-- Whether `p` occurs as a contiguous run inside `l`. -/
def listHasSub (p : List Char) : List Char → Bool
  | [] => p.isEmpty
  | c :: rest => p.isPrefixOf (c :: rest) || listHasSub p rest

/-- Whether `pat` occurs as a substring of `s`. -/
def strHasSub (s pat : String) : Bool :=
  listHasSub pat.data s.data

/-! ### The launcher `main`, as a trace of observable events plus an
outcome -/

/-- The configuration parsed from the CLI: `--root`, `--entry`,
`--port` (the defaults are `parents[1]` of the script, `"index.html"`
and `8000`). -/
structure Config where
  root : String
  entry : String
  port : Nat

/-- The environment a run of `main` interacts with. -/
structure Env where
  /-- `web_root.exists()` -/
  rootExists : Bool
  /-- whether the root path is a directory (`os.chdir` succeeds) -/
  rootIsDir : Bool
  /-- connect results during the port scan -/
  occupied : Occupied
  /-- connect results during the readiness wait -/
  ready : Ready
  /-- whether `webbrowser.open` manages to open a browser -/
  browserOpens : Bool
  /-- whether a `KeyboardInterrupt` arrives during the final wait loop -/
  interrupted : Bool

/-- Observable events of a run of `main`, in program order. -/
inductive Ev
  /-- `os.chdir(web_root)` is attempted -/
  | chdir
  /-- `ThreadingHTTPServer(("127.0.0.1", port), handler)` binds -/
  | bindSocket (port : Nat)
  /-- the startup banner is printed -/
  | banner
  /-- the background serving thread is started -/
  | threadStart
  /-- `webbrowser.open(url, ...)`; `ok` is its returned success flag -/
  | browserOpen (url : String) (ok : Bool)
  /-- a line printed to stdout -/
  | printMsg (s : String)
  /-- `server.shutdown()` -/
  | shutdown
  /-- `server.server_close()` -/
  | serverClose
  /-- `thread.join(timeout=...)`, timeout in whole seconds -/
  | threadJoin (timeoutSecs : Nat)
deriving DecidableEq, Repr

/-- How a run of `main` ends. -/
inductive Outcome
  /-- `main` returns normally; the process exits with status 0 -/
  | exitZero
  /-- `raise SystemExit(msg)`: `msg` printed to stderr, exit status 1 -/
  | systemExit (msg : String)
  /-- an uncaught exception: traceback printed, exit status 1 -/
  | uncaught (exn : String)
  /-- the final wait loop never terminates -/
  | runsForever
deriving DecidableEq, Repr

/-- The process exit status implied by an outcome (`none` when the
process never exits). -/
def exitCode : Outcome → Option Nat
  | .exitZero => some 0
  | .systemExit _ => some 1
  | .uncaught _ => some 1
  | .runsForever => none

/-- `f"目录不存在：{web_root}"`, the `SystemExit` message for a
missing root. -/
def missingRootMsg (root : String) : String := "目录不存在：" ++ root

/-- The exception raised by `os.chdir` on a path that exists but is not
a directory. -/
def notADirExn : String := "NotADirectoryError"

/-- `"浏览器已尝试自动打开，若未成功可手动复制访问地址。"`, printed
right after the browser-open attempt. -/
def manualCopyMsg : String := "浏览器已尝试自动打开，若未成功可手动复制访问地址。"

/-- `"\n收到退出指令，正在关闭服务器..."`, printed on
`KeyboardInterrupt`. -/
def interruptMsg : String := "\n收到退出指令，正在关闭服务器..."

/-- `"服务器已关闭，再见！"`, printed after the shutdown sequence. -/
def closedMsg : String := "服务器已关闭，再见！"

/-- The `main` flow of `scripts/local_server.py` over a `Config` and an
`Env`: validate the root, change directory, pick a port, bind, print
the banner, start the serving thread, wait for readiness, open the
browser, then block until interrupted and run the shutdown sequence.
Returns the event trace and the outcome. -/
def main (cfg : Config) (env : Env) : List Ev × Outcome :=
  if env.rootExists = false then
    ([], .systemExit (missingRootMsg cfg.root))
  else if env.rootIsDir = false then
    ([.chdir], .uncaught notADirExn)
  else
    match find_available_port env.occupied cfg.port 25 with
    | .error msg => ([.chdir], .uncaught msg)
    | .ok port =>
      let url := buildUrl port cfg.entry
      let started : List Ev := [.chdir, .bindSocket port, .banner, .threadStart]
      match wait_until_listening env.ready 40 with
      | .error msg => (started, .uncaught msg)
      | .ok _ =>
        let served := started ++
          [.browserOpen url env.browserOpens, .printMsg manualCopyMsg]
        if env.interrupted then
          (served ++ [.printMsg interruptMsg, .shutdown, .serverClose,
            .threadJoin 2, .printMsg closedMsg], .exitZero)
        else
          (served, .runsForever)

/-! ### Static-file path resolution -/

/-- Modelled from the spec: the request-path-to-file resolution of the
handler returned by `build_handler` lives in the standard library's
`SimpleHTTPRequestHandler` (the repository only passes
`directory=str(root)` to it), so its code is not among the sources.
Per the spec it "maps each incoming request path to a file under that
root using standard static-file resolution" and "rejects path traversal
outside the root": the standard resolution splits the request path into
components and joins onto the root only the components that are simple
names, skipping empty components, `.` and `..`.  Paths are lists of
components; `root` is the already-resolved root directory. -/
def translate_path (root : List String) (requestPath : List String) : List String :=
  root ++ requestPath.filter (fun w => !(w = "" ∨ w = "." ∨ w = ".."))

/-- Operating-system path resolution of a component list: `.` and empty
components are skipped and `..` removes the previous component. -/
def resolvePath (p : List String) : List String :=
  p.foldl
    (fun acc w =>
      if w = "" ∨ w = "." then acc
      else if w = ".." then acc.dropLast
      else acc ++ [w])
    []

/-! ### Characterization lemmas for the scan loops -/

lemma findPortGo_eq_none (occupied : Occupied) :
    ∀ n port, findPortGo occupied port n = none ↔ ∀ i, i < n → occupied (port + i) = true := by
  intro n
  induction n with
  | zero => intro port; simp [findPortGo]
  | succ m ih =>
    intro port
    cases h : occupied port with
    | true =>
      simp only [findPortGo, h, if_true, ih (port + 1)]
      constructor
      · intro hall i hi
        cases i with
        | zero => simpa using h
        | succ j =>
          have := hall j (Nat.lt_of_succ_lt_succ hi)
          simpa [Nat.add_comm, Nat.add_assoc, Nat.add_left_comm] using this
      · intro hall i hi
        have := hall (i + 1) (Nat.succ_lt_succ hi)
        simpa [Nat.add_comm, Nat.add_assoc, Nat.add_left_comm] using this
    | false =>
      simp only [findPortGo, h]
      constructor
      · intro hc; simp at hc
      · intro hall
        have := hall 0 (Nat.succ_pos m)
        simp [h] at this

lemma findPortGo_eq_some (occupied : Occupied) :
    ∀ n port q, findPortGo occupied port n = some q →
      port ≤ q ∧ q < port + n ∧ occupied q = false ∧
        ∀ r, port ≤ r → r < q → occupied r = true := by
  intro n
  induction n with
  | zero => intro port q h; simp [findPortGo] at h
  | succ m ih =>
    intro port q h
    cases hp : occupied port with
    | true =>
      simp only [findPortGo, hp, if_true] at h
      obtain ⟨h1, h2, h3, h4⟩ := ih (port + 1) q h
      refine ⟨Nat.le_of_succ_le h1, ?_, h3, ?_⟩
      · omega
      · intro r hr1 hr2
        rcases Nat.eq_or_lt_of_le hr1 with heq | hlt
        · rw [← heq]; exact hp
        · exact h4 r hlt hr2
    | false =>
      simp only [findPortGo, hp, Bool.false_eq_true, if_false, Option.some.injEq] at h
      subst h
      exact ⟨Nat.le_refl _, by omega, hp, fun r hr1 hr2 => absurd hr1 (by omega)⟩

lemma findPortGo_isSome_of_free (occupied : Occupied) (n port : Nat)
    (h : ∃ i, i < n ∧ occupied (port + i) = false) :
    ∃ q, findPortGo occupied port n = some q := by
  cases hfp : findPortGo occupied port n with
  | none =>
    obtain ⟨i, hi, hfree⟩ := h
    have := (findPortGo_eq_none occupied n port).1 hfp i hi
    rw [this] at hfree
    exact absurd hfree (by simp)
  | some q => exact ⟨q, rfl⟩

lemma waitGo_ok_iff (ready : Ready) :
    ∀ n i, waitGo ready i n = Except.ok () ↔ ∃ j, i ≤ j ∧ j < i + n ∧ ready j = true := by
  intro n
  induction n with
  | zero => intro i; simp [waitGo]; omega
  | succ m ih =>
    intro i
    cases h : ready i with
    | true =>
      simp only [waitGo, h, if_true, true_iff]
      exact ⟨i, Nat.le_refl _, by omega, h⟩
    | false =>
      simp only [waitGo, h, Bool.false_eq_true, if_false, ih (i + 1)]
      constructor
      · rintro ⟨j, hj1, hj2, hj3⟩
        exact ⟨j, by omega, by omega, hj3⟩
      · rintro ⟨j, hj1, hj2, hj3⟩
        refine ⟨j, ?_, by omega, hj3⟩
        rcases Nat.eq_or_lt_of_le hj1 with heq | hlt
        · subst heq; rw [hj3] at h; exact absurd h (by simp)
        · exact hlt

lemma waitGo_error_iff (ready : Ready) :
    ∀ n i, waitGo ready i n = Except.error startupTimeoutMsg ↔
      ∀ j, i ≤ j → j < i + n → ready j = false := by
  intro n
  induction n with
  | zero => intro i; simp [waitGo]; omega
  | succ m ih =>
    intro i
    cases h : ready i with
    | true =>
      simp only [waitGo, h, if_true]
      constructor
      · intro hc; exact absurd hc (by simp)
      · intro hall
        have := hall i (Nat.le_refl _) (by omega)
        rw [h] at this
        exact absurd this (by simp)
    | false =>
      simp only [waitGo, h, Bool.false_eq_true, if_false, ih (i + 1)]
      constructor
      · intro hall j hj1 hj2
        rcases Nat.eq_or_lt_of_le hj1 with heq | hlt
        · subst heq; exact h
        · exact hall j hlt (by omega)
      · intro hall j hj1 hj2
        exact hall j (by omega) (by omega)

/-! ### Claim theorems -/

/-- C1: for every starting port `P` and attempt budget `N`,
`find_available_port` probes `P, P+1, …, P+N-1` in increasing order and
returns the first (hence lowest) port in that range whose connect
attempt fails; if the connect attempt succeeds for every port in the
range it raises an error instead of returning a port. -/
theorem find_available_port_correct (occupied : Occupied) (P N : Nat) :
    ((∃ i, i < N ∧ occupied (P + i) = false) →
      ∃ q, find_available_port occupied P N = Except.ok q ∧
        P ≤ q ∧ q < P + N ∧ occupied q = false ∧
        ∀ r, P ≤ r → r < q → occupied r = true) ∧
    ((∀ i, i < N → occupied (P + i) = true) →
      find_available_port occupied P N = Except.error (portExhaustedMsg P)) := by
  constructor
  · intro hfree
    obtain ⟨q, hq⟩ := findPortGo_isSome_of_free occupied N P hfree
    obtain ⟨h1, h2, h3, h4⟩ := findPortGo_eq_some occupied N P q hq
    exact ⟨q, by simp [find_available_port, hq], h1, h2, h3, h4⟩
  · intro hall
    have hnone : findPortGo occupied P N = none :=
      (findPortGo_eq_none occupied N P).2 hall
    simp [find_available_port, hnone]

/-- Witness for C1, at a concrete occupancy where ports below 8003 are
occupied: the scan from 8000 with 25 tries returns 8003 with the stated
bounds, and a fully occupied scan from 9000 errors. -/
theorem find_available_port_correct_witness :
    (∃ q, find_available_port (fun n => decide (n < 8003)) 8000 25 = Except.ok q ∧
      8000 ≤ q ∧ q < 8000 + 25 ∧ (decide (q < 8003)) = false ∧
      ∀ r, 8000 ≤ r → r < q → decide (r < 8003) = true) ∧
    find_available_port (fun _ => true) 9000 25 = Except.error (portExhaustedMsg 9000) :=
  ⟨(find_available_port_correct (fun n => decide (n < 8003)) 8000 25).1
      ⟨3, by decide, by decide⟩,
    (find_available_port_correct (fun _ => true) 9000 25).2 (fun i _ => rfl)⟩

/-- C2: when the root path does not exist, `main` ends in a `SystemExit`
carrying a user-facing error message — a non-zero process exit — and the
event trace contains no socket bind. -/
theorem missing_root_exits_before_bind (cfg : Config) (env : Env)
    (h : env.rootExists = false) :
    (main cfg env).2 = Outcome.systemExit (missingRootMsg cfg.root) ∧
    exitCode (main cfg env).2 = some 1 ∧
    ∀ p, Ev.bindSocket p ∉ (main cfg env).1 := by
  simp [main, h, exitCode]

/-- Witness for C2 at a concrete configuration with a missing root. -/
theorem missing_root_exits_before_bind_witness :
    (main ⟨"/no/such/dir", "index.html", 8000⟩
        ⟨false, false, fun _ => false, fun _ => false, true, false⟩).2 =
      Outcome.systemExit (missingRootMsg "/no/such/dir") ∧
    exitCode (main ⟨"/no/such/dir", "index.html", 8000⟩
        ⟨false, false, fun _ => false, fun _ => false, true, false⟩).2 = some 1 ∧
    ∀ p, Ev.bindSocket p ∉ (main ⟨"/no/such/dir", "index.html", 8000⟩
        ⟨false, false, fun _ => false, fun _ => false, true, false⟩).1 :=
  missing_root_exits_before_bind _ _ rfl

/-- C3: `wait_until_listening` returns normally exactly when some
attempt within the budget succeeds, and raises the startup-timeout
error exactly when every attempt in the budget fails. -/
theorem wait_until_listening_correct (ready : Ready) (retries : Nat) :
    (wait_until_listening ready retries = Except.ok () ↔
      ∃ i, i < retries ∧ ready i = true) ∧
    (wait_until_listening ready retries = Except.error startupTimeoutMsg ↔
      ∀ i, i < retries → ready i = false) := by
  constructor
  · rw [wait_until_listening, waitGo_ok_iff ready retries 0]
    constructor
    · rintro ⟨j, _, hj2, hj3⟩; exact ⟨j, by omega, hj3⟩
    · rintro ⟨j, hj1, hj2⟩; exact ⟨j, Nat.zero_le _, by omega, hj2⟩
  · rw [wait_until_listening, waitGo_error_iff ready retries 0]
    constructor
    · intro hall i hi; exact hall i (Nat.zero_le _) (by omega)
    · intro hall i _ hi; exact hall i (by omega)

/-- Witness for C3: with attempts succeeding from index 5 on, the wait
returns `ok`; with no attempt succeeding, it raises the timeout. -/
theorem wait_until_listening_correct_witness :
    wait_until_listening (fun i => decide (5 ≤ i)) 40 = Except.ok () ∧
    wait_until_listening (fun _ => false) 40 = Except.error startupTimeoutMsg :=
  ⟨(wait_until_listening_correct (fun i => decide (5 ≤ i)) 40).1.2 ⟨5, by decide, by decide⟩,
    (wait_until_listening_correct (fun _ => false) 40).2.2 (fun i _ => rfl)⟩

/-- C4: at a run where the root is fine, the port scan returns 8000 and
the server never becomes reachable (every readiness attempt fails), the
trace shows the socket was bound but contains no `server_close` — the
startup-timeout exception propagates from before the `try/finally`, so
the bound socket is not closed before the process exits. -/
theorem startup_timeout_leaves_socket_unclosed :
    (Ev.bindSocket 8000 ∈ (main ⟨"/srv/site", "index.html", 8000⟩
        ⟨true, true, fun _ => false, fun _ => false, true, false⟩).1) ∧
    (Ev.serverClose ∉ (main ⟨"/srv/site", "index.html", 8000⟩
        ⟨true, true, fun _ => false, fun _ => false, true, false⟩).1) ∧
    (main ⟨"/srv/site", "index.html", 8000⟩
        ⟨true, true, fun _ => false, fun _ => false, true, false⟩).2 =
      Outcome.uncaught startupTimeoutMsg := by
  decide

/-- C5: when the root checks pass, a port is found, the server becomes
reachable and an interrupt arrives in the final wait loop, `main` runs
the graceful-shutdown path: stop of the serve loop (`shutdown`), close
of the listening socket (`server_close`), a thread join bounded by 2
seconds, a closing message, and process exit status 0. -/
theorem interrupt_graceful_shutdown (cfg : Config) (env : Env)
    (hroot : env.rootExists = true) (hdir : env.rootIsDir = true)
    (hfree : ∃ i, i < 25 ∧ env.occupied (cfg.port + i) = false)
    (hready : ∃ i, i < 40 ∧ env.ready i = true)
    (hint : env.interrupted = true) :
    (∃ port, main cfg env =
      ([Ev.chdir, Ev.bindSocket port, Ev.banner, Ev.threadStart,
        Ev.browserOpen (buildUrl port cfg.entry) env.browserOpens,
        Ev.printMsg manualCopyMsg, Ev.printMsg interruptMsg, Ev.shutdown,
        Ev.serverClose, Ev.threadJoin 2, Ev.printMsg closedMsg],
        Outcome.exitZero)) ∧
    exitCode (main cfg env).2 = some 0 := by
  obtain ⟨q, hq⟩ := findPortGo_isSome_of_free env.occupied 25 cfg.port hfree
  have hfa : find_available_port env.occupied cfg.port 25 = Except.ok q := by
    simp [find_available_port, hq]
  have hw : wait_until_listening env.ready 40 = Except.ok () := by
    rw [wait_until_listening]
    refine (waitGo_ok_iff env.ready 40 0).2 ?_
    obtain ⟨i, h1, h2⟩ := hready
    exact ⟨i, Nat.zero_le _, by omega, h2⟩
  have hm : main cfg env =
      ([Ev.chdir, Ev.bindSocket q, Ev.banner, Ev.threadStart,
        Ev.browserOpen (buildUrl q cfg.entry) env.browserOpens,
        Ev.printMsg manualCopyMsg, Ev.printMsg interruptMsg, Ev.shutdown,
        Ev.serverClose, Ev.threadJoin 2, Ev.printMsg closedMsg],
        Outcome.exitZero) := by
    simp [main, hroot, hdir, hfa, hw, hint]
  exact ⟨⟨q, hm⟩, by rw [hm]; rfl⟩

/-- Witness for C5: a concrete interrupted run with port 8000 free and
the first readiness attempt succeeding. -/
theorem interrupt_graceful_shutdown_witness :
    (∃ port, main ⟨"/srv/site", "index.html", 8000⟩
        ⟨true, true, fun _ => false, fun _ => true, true, true⟩ =
      ([Ev.chdir, Ev.bindSocket port, Ev.banner, Ev.threadStart,
        Ev.browserOpen (buildUrl port "index.html") true,
        Ev.printMsg manualCopyMsg, Ev.printMsg interruptMsg, Ev.shutdown,
        Ev.serverClose, Ev.threadJoin 2, Ev.printMsg closedMsg],
        Outcome.exitZero)) ∧
    exitCode (main ⟨"/srv/site", "index.html", 8000⟩
        ⟨true, true, fun _ => false, fun _ => true, true, true⟩).2 = some 0 :=
  interrupt_graceful_shutdown ⟨"/srv/site", "index.html", 8000⟩
    ⟨true, true, fun _ => false, fun _ => true, true, true⟩
    rfl rfl ⟨0, by decide, rfl⟩ ⟨0, by decide, rfl⟩ rfl

/-- C10: when the root path exists but is not a directory, the
existence check passes (the run does not end in the missing-root
`SystemExit`), the working-directory change is reached, and the run
ends in an unhandled `NotADirectoryError` instead of the user-facing
configuration error. -/
theorem root_file_passes_check_then_chdir_fails (cfg : Config) (env : Env)
    (hroot : env.rootExists = true) (hdir : env.rootIsDir = false) :
    main cfg env = ([Ev.chdir], Outcome.uncaught notADirExn) ∧
    ∀ m, (main cfg env).2 ≠ Outcome.systemExit m := by
  have hm : main cfg env = ([Ev.chdir], Outcome.uncaught notADirExn) := by
    simp [main, hroot, hdir]
  exact ⟨hm, by rw [hm]; intro m h; exact Outcome.noConfusion h⟩

/-- Witness for C10: a concrete run whose root exists but is a regular
file. -/
theorem root_file_passes_check_then_chdir_fails_witness :
    main ⟨"/srv/afile", "index.html", 8000⟩
        ⟨true, false, fun _ => false, fun _ => false, true, false⟩ =
      ([Ev.chdir], Outcome.uncaught notADirExn) ∧
    ∀ m, (main ⟨"/srv/afile", "index.html", 8000⟩
        ⟨true, false, fun _ => false, fun _ => false, true, false⟩).2 ≠
      Outcome.systemExit m :=
  root_file_passes_check_then_chdir_fails _ _ rfl rfl

/-! ### Helper lemmas: substring containment, lstrip, path resolution -/

lemma isPrefixOf_append_self (p y : List Char) : p.isPrefixOf (p ++ y) = true := by
  induction p with
  | nil => cases y <;> rfl
  | cons c cs ih =>
    rw [List.cons_append]
    simp [List.isPrefixOf, ih]

lemma listHasSub_sandwich (p : List Char) : ∀ x y, listHasSub p (x ++ p ++ y) = true := by
  intro x
  induction x with
  | nil =>
    intro y
    cases hp : p with
    | nil =>
      cases y with
      | nil => rfl
      | cons c cs => simp [listHasSub, List.isPrefixOf]
    | cons c cs =>
      rw [List.nil_append, List.cons_append]
      simp only [listHasSub]
      have h := isPrefixOf_append_self (c :: cs) y
      rw [List.cons_append] at h
      simp [h]
  | cons a as ih =>
    intro y
    have h := ih y
    rw [List.cons_append, List.cons_append]
    simp only [listHasSub]
    rw [h]
    simp

lemma strHasSub_sandwich (a b s : String) : strHasSub (a ++ s ++ b) s = true := by
  show listHasSub s.data (a ++ s ++ b).data = true
  rw [String.data_append, String.data_append]
  exact listHasSub_sandwich s.data a.data b.data

lemma takeWhile_slash_replicate (l : List Char) :
    ∃ n, l.takeWhile (fun c => decide (c = '/')) = List.replicate n '/' := by
  induction l with
  | nil => exact ⟨0, rfl⟩
  | cons a as ih =>
    by_cases ha : a = '/'
    · obtain ⟨n, hn⟩ := ih
      refine ⟨n + 1, ?_⟩
      rw [List.takeWhile_cons]
      simp [ha, hn, List.replicate_succ]
    · refine ⟨0, ?_⟩
      rw [List.takeWhile_cons]
      simp [ha]

lemma head_dropWhile_slash (l : List Char) :
    ∀ c, (l.dropWhile (fun c => decide (c = '/'))).head? = some c → ¬(c = '/') := by
  induction l with
  | nil => intro c hc; simp at hc
  | cons a as ih =>
    intro c hc
    by_cases ha : a = '/'
    · rw [List.dropWhile_cons] at hc
      simp only [ha, decide_True, if_true] at hc
      exact ih c hc
    · rw [List.dropWhile_cons] at hc
      simp only [ha, decide_False, Bool.false_eq_true, if_false, List.head?_cons,
        Option.some.injEq] at hc
      rw [← hc]
      exact ha

lemma resolve_foldl_clean :
    ∀ (l : List String), (∀ w ∈ l, ¬(w = "" ∨ w = "." ∨ w = "..")) →
      ∀ acc, List.foldl
        (fun acc w =>
          if w = "" ∨ w = "." then acc
          else if w = ".." then acc.dropLast
          else acc ++ [w]) acc l = acc ++ l := by
  intro l
  induction l with
  | nil => intro _ acc; simp
  | cons w ws ih =>
    intro h acc
    have hw := h w (List.mem_cons_self w ws)
    have h1 : ¬(w = "" ∨ w = ".") := fun hc =>
      hw (hc.elim Or.inl (fun h2 => Or.inr (Or.inl h2)))
    have h2 : ¬(w = "..") := fun hc => hw (Or.inr (Or.inr hc))
    simp only [List.foldl_cons, if_neg h1, if_neg h2]
    rw [ih (fun v hv => h v (List.mem_cons_of_mem w hv)) (acc ++ [w])]
    simp

/-- C6 (as stated, refuted): with every port from 8000 on occupied and
25 tries, the scan errors, and its message contains the decimal form of
the start port 8000 but of neither end of the scanned range (neither
8024, the last probed port, nor 8025). -/
theorem portExhausted_msg_lacks_range_end :
    find_available_port (fun _ => true) 8000 25 = Except.error (portExhaustedMsg 8000) ∧
    strHasSub (portExhaustedMsg 8000) "8000" = true ∧
    strHasSub (portExhaustedMsg 8000) "8024" = false ∧
    strHasSub (portExhaustedMsg 8000) "8025" = false := by
  refine ⟨rfl, by decide, by decide, by decide⟩

/-- C6 (amended): when every probed port is occupied the error of
`find_available_port` names only the starting port of the scanned
range: the message is exactly `"在 " ++ toString P ++ "
附近找不到可用端口"`, which contains the start port's decimal form (and
no other number). -/
theorem portExhausted_names_only_start (occupied : Occupied) (P N : Nat)
    (h : ∀ i, i < N → occupied (P + i) = true) :
    find_available_port occupied P N =
      Except.error ("在 " ++ toString P ++ " 附近找不到可用端口") ∧
    strHasSub (portExhaustedMsg P) (toString P) = true := by
  constructor
  · have hnone : findPortGo occupied P N = none :=
      (findPortGo_eq_none occupied N P).2 h
    simp [find_available_port, hnone, portExhaustedMsg]
  · exact strHasSub_sandwich "在 " " 附近找不到可用端口" (toString P)

/-- Witness for the amended C6 at a fully occupied scan from 8000. -/
theorem portExhausted_names_only_start_witness :
    find_available_port (fun _ => true) 8000 25 =
      Except.error ("在 " ++ toString 8000 ++ " 附近找不到可用端口") ∧
    strHasSub (portExhaustedMsg 8000) (toString 8000) = true :=
  portExhausted_names_only_start (fun _ => true) 8000 25 (fun _ _ => rfl)

/-- C7: the launcher's URL is exactly
`"http://localhost:" ++ port ++ "/" ++ stripped-entry`, where the
stripped entry is the entry with every leading `'/'` removed (the entry
decomposes as a run of slashes followed by the stripped part, whose
first character is not a slash); with the default entry the URL path is
`/index.html`. -/
theorem buildUrl_correct (port : Nat) (entry : String) :
    (∃ k, entry.data = List.replicate k '/' ++ (lstripSlash entry).data ∧
      ∀ c, (lstripSlash entry).data.head? = some c → ¬(c = '/')) ∧
    buildUrl port entry =
      "http://localhost:" ++ toString port ++ "/" ++ lstripSlash entry ∧
    buildUrl port "index.html" =
      "http://localhost:" ++ toString port ++ "/index.html" := by
  refine ⟨?_, rfl, ?_⟩
  · obtain ⟨k, hk⟩ := takeWhile_slash_replicate entry.data
    refine ⟨k, ?_, head_dropWhile_slash entry.data⟩
    rw [← hk]
    exact (List.takeWhile_append_dropWhile _ _).symm
  · rw [buildUrl, show lstripSlash "index.html" = "index.html" from rfl,
      String.append_assoc]
    rfl

/-- C8: the handler's path resolution keeps every request inside the
root: for any request path — including traversal attempts such as
`../../etc/passwd` — the resolved file path is the root extended by
simple (non-empty, non-`.`, non-`..`) components, so its OS-level
resolution still has the root as a prefix. -/
theorem translate_path_stays_under_root (root req : List String)
    (hroot : ∀ w ∈ root, ¬(w = "" ∨ w = "." ∨ w = "..")) :
    ∃ t, (∀ w ∈ t, ¬(w = "" ∨ w = "." ∨ w = "..")) ∧
      resolvePath (translate_path root req) = root ++ t := by
  have hclean : ∀ w ∈ req.filter (fun w => !(w = "" ∨ w = "." ∨ w = "..")),
      ¬(w = "" ∨ w = "." ∨ w = "..") := by
    intro w hw
    have h2 := (List.mem_filter.1 hw).2
    simpa using h2
  refine ⟨req.filter (fun w => !(w = "" ∨ w = "." ∨ w = "..")), hclean, ?_⟩
  rw [translate_path, resolvePath, List.foldl_append]
  rw [resolve_foldl_clean root hroot []]
  rw [List.nil_append]
  exact resolve_foldl_clean _ hclean root

/-- Witness for C8: the traversal request `../../etc/passwd` under the
root `/home/user/site` resolves to a path under that root. -/
theorem translate_path_stays_under_root_witness :
    ∃ t, (∀ w ∈ t, ¬(w = "" ∨ w = "." ∨ w = "..")) ∧
      resolvePath (translate_path ["home", "user", "site"]
          ["..", "..", "etc", "passwd"]) =
        ["home", "user", "site"] ++ t :=
  translate_path_stays_under_root ["home", "user", "site"]
    ["..", "..", "etc", "passwd"] (by decide)

/-- C9: on a run that reaches the browser-open step, the launcher
behaves the same whether the browser opens or not: the
copy-the-URL-manually message is printed, the run continues into the
final wait loop (its outcome is a normal exit or the unbounded wait,
never an error), and the outcome does not depend on the browser
result. -/
theorem browser_open_nonfatal (cfg : Config) (env : Env)
    (hroot : env.rootExists = true) (hdir : env.rootIsDir = true)
    (hfree : ∃ i, i < 25 ∧ env.occupied (cfg.port + i) = false)
    (hready : ∃ i, i < 40 ∧ env.ready i = true) :
    Ev.printMsg manualCopyMsg ∈ (main cfg env).1 ∧
    ((main cfg env).2 = Outcome.exitZero ∨ (main cfg env).2 = Outcome.runsForever) ∧
    ∀ b : Bool,
      (main cfg (Env.mk env.rootExists env.rootIsDir env.occupied env.ready b
        env.interrupted)).2 = (main cfg env).2 := by
  obtain ⟨q, hq⟩ := findPortGo_isSome_of_free env.occupied 25 cfg.port hfree
  have hfa : find_available_port env.occupied cfg.port 25 = Except.ok q := by
    simp [find_available_port, hq]
  have hw : wait_until_listening env.ready 40 = Except.ok () := by
    rw [wait_until_listening]
    refine (waitGo_ok_iff env.ready 40 0).2 ?_
    obtain ⟨i, h1, h2⟩ := hready
    exact ⟨i, Nat.zero_le _, by omega, h2⟩
  cases hint : env.interrupted with
  | true =>
    refine ⟨?_, Or.inl ?_, ?_⟩
    · simp [main, hroot, hdir, hfa, hw, hint]
    · simp [main, hroot, hdir, hfa, hw, hint]
    · intro b; simp [main, hroot, hdir, hfa, hw, hint]
  | false =>
    refine ⟨?_, Or.inr ?_, ?_⟩
    · simp [main, hroot, hdir, hfa, hw, hint]
    · simp [main, hroot, hdir, hfa, hw, hint]
    · intro b; simp [main, hroot, hdir, hfa, hw, hint]

/-- Witness for C9: a concrete run with port 8000 free and the first
readiness attempt succeeding. -/
theorem browser_open_nonfatal_witness :
    Ev.printMsg manualCopyMsg ∈ (main ⟨"/srv/site", "index.html", 8000⟩
      ⟨true, true, fun _ => false, fun _ => true, false, true⟩).1 ∧
    ((main ⟨"/srv/site", "index.html", 8000⟩
        ⟨true, true, fun _ => false, fun _ => true, false, true⟩).2 =
          Outcome.exitZero ∨
      (main ⟨"/srv/site", "index.html", 8000⟩
        ⟨true, true, fun _ => false, fun _ => true, false, true⟩).2 =
          Outcome.runsForever) ∧
    ∀ b : Bool,
      (main ⟨"/srv/site", "index.html", 8000⟩
        (Env.mk true true (fun _ => false) (fun _ => true) b true)).2 =
      (main ⟨"/srv/site", "index.html", 8000⟩
        ⟨true, true, fun _ => false, fun _ => true, false, true⟩).2 :=
  browser_open_nonfatal ⟨"/srv/site", "index.html", 8000⟩
    ⟨true, true, fun _ => false, fun _ => true, false, true⟩
    rfl rfl ⟨0, by decide, rfl⟩ ⟨0, by decide, rfl⟩

end LocalServer
